import Mathlib

/-!
Verification of the request-servicing pipeline and content catalog of the
`http_server` repository (a static-file HTTP/HTTPS origin server in C).

The development shallowly embeds the C sources:
  * `src/node.c`   — catalog build (BST keyed by path hash), path/content hashes;
  * `src/cache.c`  — catalog lookup wrappers;
  * `src/request.c`— request parsing, method/path validation, path resolution;
  * `src/response.c`— response emission (full, partial, error, 304, 301, OPTIONS);
  * `src/main.c`   — the per-connection worker `handle_client_thread`.

Machine integers are modelled as `Nat`/`Int` with explicit reduction modulo
`2^32` (C `unsigned int`) and `2^64` (C `unsigned long`); C `char` is signed,
so bytes are sign-adjusted where the source reads them into `char` buffers.
Responses are modelled as a status code plus the header fields and body bytes
that the source writes to the transport, in emission order.
-/

set_option maxRecDepth 100000

namespace HttpServer

/-! ## Byte and C-string helpers -/

/-- Model of `unsigned long` modulus (64-bit). -/
def UL : Nat := 2 ^ 64

/-- Model of `unsigned int` modulus (32-bit). -/
def UINT : Nat := 2 ^ 32

/-- Value of a byte read through C `char` (signed, two's complement). -/
def scByte (b : Nat) : Int :=
  if b % 256 < 128 then ((b % 256 : Nat) : Int) else ((b % 256 : Nat) : Int) - 256

/-- Signed `char` value of a character of a C string. -/
def scChar (c : Char) : Int := scByte (c.toNat % 256)

/-- Unsigned byte value of a character (as `strcmp` compares). -/
def ucChar (c : Char) : Nat := c.toNat % 256

/-- Test that the first argument is a leading segment of the second
(character-exact). -/
def isPrefixChars : List Char → List Char → Bool
  | [], _ => true
  | _ :: _, [] => false
  | a :: as, b :: bs => a = b && isPrefixChars as bs

/-- Model of `strstr(hay, pat) != NULL`: `pat` occurs somewhere inside `hay`. -/
def hasSubstr (hay : List Char) (pat : List Char) : Bool :=
  match hay with
  | [] => pat.isEmpty
  | _ :: t => isPrefixChars pat hay || hasSubstr t pat

/-- Three-way `strcmp` (compares as `unsigned char`, C strings have no NUL). -/
def strcmp_chars : List Char → List Char → Int
  | [], [] => 0
  | [], _ :: _ => -1
  | _ :: _, [] => 1
  | a :: as, b :: bs =>
      if ucChar a < ucChar b then -1
      else if ucChar b < ucChar a then 1
      else strcmp_chars as bs

/-- Model of `strcmp(a, b) <= 0`. -/
def strcmp_le (a b : String) : Bool := decide (strcmp_chars a.data b.data ≤ 0)

/-- ASCII lowercase, as C `tolower` acts on the letters compared here. -/
def lowerChar (c : Char) : Char :=
  if 'A' ≤ c ∧ c ≤ 'Z' then Char.ofNat (c.toNat + 32) else c

/-- Model of `strncasecmp(line, pat, pat.length) == 0` for a NUL-free pattern. -/
def ncaseeq : List Char → List Char → Bool
  | [], _ => true
  | _ :: _, [] => false
  | p :: ps, l :: ls => lowerChar p = lowerChar l && ncaseeq ps ls

/-- Model of `isspace` for the characters `strtoul`/`atoll` skip. -/
def isSpaceChar (c : Char) : Bool :=
  c = ' ' || c = '\t' || c = '\n' || c = Char.ofNat 11 || c = Char.ofNat 12 || c = '\r'

/-- ASCII decimal digit test. -/
def isDigitChar (c : Char) : Bool := decide ('0' ≤ c ∧ c ≤ '9')

/-- Value of a digit run (unbounded; callers clamp per the C conversion). -/
def digitsVal (ds : List Char) : Nat :=
  ds.foldl (fun a c => a * 10 + (c.toNat - 48)) 0

/-- Model of `atoll`: skip spaces, optional sign, leading digits; clamps like `strtoll`. -/
def atoll (s : List Char) : Int :=
  let s1 := s.dropWhile (fun c => isSpaceChar c)
  match s1 with
  | '-' :: rest => -((min (digitsVal (rest.takeWhile (fun c => isDigitChar c))) (2 ^ 63) : Nat) : Int)
  | '+' :: rest => ((min (digitsVal (rest.takeWhile (fun c => isDigitChar c))) (2 ^ 63 - 1) : Nat) : Int)
  | _ => ((min (digitsVal (s1.takeWhile (fun c => isDigitChar c))) (2 ^ 63 - 1) : Nat) : Int)

/-- Model of `strtoul(s, NULL, 10)`: skip spaces, optional sign (negation wraps),
leading digits; clamps at `ULONG_MAX` on overflow. -/
def strtoul10 (s : List Char) : Nat :=
  let s1 := s.dropWhile (fun c => isSpaceChar c)
  match s1 with
  | '-' :: rest => (UL - min (digitsVal (rest.takeWhile (fun c => isDigitChar c))) (UL - 1)) % UL
  | '+' :: rest => min (digitsVal (rest.takeWhile (fun c => isDigitChar c))) (UL - 1)
  | _ => min (digitsVal (s1.takeWhile (fun c => isDigitChar c))) (UL - 1)

/-- Model of `strtok_r` token stream: maximal runs of non-delimiter characters. -/
def tokensAux (isDelim : Char → Bool) : List Char → List Char → List (List Char)
  | [], acc => if acc.isEmpty then [] else [acc.reverse]
  | c :: cs, acc =>
      if isDelim c then
        if acc.isEmpty then tokensAux isDelim cs []
        else acc.reverse :: tokensAux isDelim cs []
      else tokensAux isDelim cs (c :: acc)

/-- All `strtok_r` tokens of `s` for delimiter set `delims`. -/
def ctokens (delims : List Char) (s : List Char) : List (List Char) :=
  tokensAux (fun c => delims.contains c) s []

/-- Model of `snprintf` into a buffer of `bufsize` bytes keeps at most `bufsize - 1`
characters of the formatted output (the last byte holds the NUL). -/
def snprintf_bytes (bufsize : Nat) (s : List Char) : List Char := s.take (bufsize - 1)

/-- Bytes of an ASCII string as written to the transport. -/
def strBytes (s : String) : List Nat := s.data.map (fun c => c.toNat % 256)

/-! ## `node.c` — content catalog (unbalanced BST keyed by path hash) -/

/-- Model of `types.h`: compile-time server root. -/
def SERVER_PATH : String := "/home/remote/server"

/-- Result of `open(2)` on a path, distinguishing the `errno` values the
pipeline branches on. -/
inductive OpenResult where
  | ok (bytes : List Nat)
  | enoent
  | eacces
  | other
  deriving DecidableEq

/-- The filesystem the server runs against: what `open`+`read` yields for a
path, and the formatted `stat` mtime (`update_last_modified`). -/
structure FS where
  open_file : String → OpenResult
  mtime : String → Option String

/-- Model of `hashPath` (djb2 over signed chars in `unsigned long`, returned through
`int` and stored in `unsigned int`, hence reduced mod `2^32`). -/
def hashPath (s : String) : Nat :=
  let h : Int := s.data.foldl (fun h c => (h * 33 + scChar c) % (UL : Int)) 5381
  (h % (UINT : Int)).toNat

/-- Model of `hashFile`: additive hash of the file bytes (read into a signed `char`
buffer) starting from 5381; `0` when the file cannot be opened or read. -/
def hashFile (fs : FS) (filename : String) : Nat :=
  match fs.open_file filename with
  | .ok bytes =>
      let h : Int := bytes.foldl (fun h b => (h + scByte b) % (UL : Int)) 5381
      (h % (UINT : Int)).toNat
  | _ => 0

/-- One catalog entry (`struct Node` payload). -/
structure NodeData where
  path : String
  path_hash : Nat
  file_hash : Nat
  last_modified : Option String
  deriving DecidableEq

/-- The catalog BST (`struct Node*`, `nil` standing for `NULL`). -/
inductive Tree where
  | nil
  | node (l : Tree) (d : NodeData) (r : Tree)
  deriving DecidableEq

/-- Descend to the insertion point exactly as the `while` loop of
`insert_node` does: equal hash leaves the tree unchanged, smaller hashes go
left, larger go right, and a missing child is replaced by the new node. -/
def insert_go : Tree → NodeData → Tree
  | .nil, d => .node .nil d .nil
  | .node l d0 r, d =>
      if d0.path_hash = d.path_hash then .node l d0 r
      else if d0.path_hash > d.path_hash then .node (insert_go l d) d0 r
      else .node l d0 (insert_go r d)

/-- Model of `insert_node(head, new)`: with a `NULL` head the loop body never runs and
the tree stays empty; otherwise the iterative descent of `insert_go`. -/
def insert_node (head : Tree) (d : NodeData) : Tree :=
  match head with
  | .nil => .nil
  | .node l d0 r => insert_go (.node l d0 r) d

/-- Model of `update_last_modified`: formatted `stat` mtime of the file. -/
def update_last_modified (fs : FS) (filename : String) : Option String :=
  fs.mtime filename

/-- Model of `add_node(head, filename)`: builds the entry, rejecting a zero path hash
or zero file hash by returning `NULL` — which the caller assigns over the tree
head.  On success: a fresh root when the tree was empty, otherwise the head
with the entry inserted. -/
def add_node (fs : FS) (head : Tree) (filename : String) : Tree :=
  let path_hash := hashPath filename
  if path_hash = 0 then .nil
  else
    let file_hash := hashFile fs filename
    if file_hash = 0 then .nil
    else
      let d : NodeData := ⟨filename, path_hash, file_hash, update_last_modified fs filename⟩
      match head with
      | .nil => .node .nil d .nil
      | .node l d0 r => insert_node (.node l d0 r) d

/-- The substring that excludes video files from the catalog. -/
def videosSub : String := "/videos/"

/-- Model of `init_tree`, abstracted over the line list produced by
`find SERVER_PATH/webpages -type f` (the walk): the first line is added
unconditionally; every later line is skipped when it contains `/videos/`,
otherwise added. -/
def init_tree (fs : FS) (walk : List String) : Tree :=
  match walk with
  | [] => .nil
  | first :: rest =>
      rest.foldl
        (fun h line => if hasSubstr line.data videosSub.data then h else add_node fs h line)
        (add_node fs .nil first)

/-- Iterative BST search of `lookupNode` (after its `tag == 0` guard). -/
def lookup_go : Tree → Nat → Option NodeData
  | .nil, _ => none
  | .node l d r, tag =>
      if d.path_hash = tag then some d
      else if d.path_hash > tag then lookup_go l tag
      else lookup_go r tag

/-- Model of `lookupNode(head, tag)`. -/
def lookupNode (t : Tree) (tag : Nat) : Option NodeData :=
  if tag = 0 then none else lookup_go t tag

/-! ## `cache.c` — catalog wrappers -/

/-- Model of `cache_hash_path`. -/
def cache_hash_path (path : String) : Nat := hashPath path

/-- Model of `cache_lookup`. -/
def cache_lookup (tree_head : Tree) (path : String) : Option NodeData :=
  lookupNode tree_head (cache_hash_path path)

/-- Model of `cache_tree_init(root_dir)`: logs `root_dir` and calls `init_tree()`,
which ignores it and walks the compile-time `SERVER_PATH` instead. -/
def cache_tree_init (fs : FS) (walk : List String) (root_dir : String) : Tree :=
  init_tree fs walk

/-! ## Catalog observation helpers (for stating invariants) -/

/-- In-order entry predicate. -/
def tree_all (p : NodeData → Prop) : Tree → Prop
  | .nil => True
  | .node l d r => p d ∧ tree_all p l ∧ tree_all p r

/-- BST ordering invariant of the catalog (smaller hashes left). -/
def tree_bst : Tree → Prop
  | .nil => True
  | .node l d r =>
      tree_bst l ∧ tree_bst r ∧
      tree_all (fun x => x.path_hash < d.path_hash) l ∧
      tree_all (fun x => d.path_hash < x.path_hash) r

/-- In-order list of path fingerprints. -/
def tree_hashes : Tree → List Nat
  | .nil => []
  | .node l d r => tree_hashes l ++ d.path_hash :: tree_hashes r

/-- In-order list of entry paths. -/
def tree_paths : Tree → List String
  | .nil => []
  | .node l d r => tree_paths l ++ d.path :: tree_paths r

/-! ## `request.c` — parsing and validation -/

/-- The parsed `Client` fields the pipeline reads (headers the parser binds
but the pipeline never reads — `User-Agent`, `Referer`, `Accept*`, `DNT`,
`Sec-GPC`, `Priority` — are left out of the record). -/
structure ClientReq where
  method : String
  path : String
  version : String
  host : Option String
  connection_status : Bool
  tag : Nat
  modified_since : Option String
  range : Bool
  start_range : Int
  end_range : Int
  upgrade_tls : Bool
  is_ssl : Bool
  deriving DecidableEq

/-- Field defaults set by `calloc` plus the explicit initialisers of
`parse_http_request` (`range 0`, `start 0`, `end -1`, `tag 0`,
`connection_status 0`, `upgrade_tls 0`). -/
def defaultClientReq (is_ssl : Bool) : ClientReq :=
  { method := "", path := "", version := "", host := none,
    connection_status := false, tag := 0, modified_since := none,
    range := false, start_range := 0, end_range := -1,
    upgrade_tls := false, is_ssl := is_ssl }

/-- Model of `parse_range_header(client, range_value)`. -/
def parse_range_header (c : ClientReq) (v : List Char) : ClientReq :=
  if isPrefixChars "bytes=".data v = false then { c with range := false }
  else
    let v6 := v.drop 6
    let c1 := { c with range := true, start_range := 0, end_range := -1 }
    match v6 with
    | '-' :: rest => { c1 with start_range := -(atoll rest) }
    | _ =>
        if (v6.dropWhile (fun ch => ch ≠ '-')).isEmpty then c1
        else
          let before := v6.takeWhile (fun ch => ch ≠ '-')
          let after := (v6.dropWhile (fun ch => ch ≠ '-')).drop 1
          let c2 := { c1 with start_range := atoll before }
          let after' := after.dropWhile (fun ch => ch = ' ' || ch = '\t')
          match after'.head? with
          | some d => if isDigitChar d then { c2 with end_range := atoll after' } else c2
          | none => c2

/-- Model of `parse_header_line(client, line)`: first matching case-insensitive header
pattern wins; unknown headers leave the request unchanged. -/
def parse_header_line (c : ClientReq) (line : List Char) : ClientReq :=
  if ncaseeq "Host: ".data line then { c with host := some (String.mk (line.drop 6)) }
  else if ncaseeq "Connection: ".data line then
    if ncaseeq "keep-alive".data (line.drop 12) then { c with connection_status := true }
    else { c with connection_status := false }
  else if ncaseeq "User-Agent: ".data line then c
  else if ncaseeq "If-None-Match: ".data line then
    let etag0 := line.drop 15
    let etag1 := if etag0.head? = some '"' then etag0.drop 1 else etag0
    let etag2 := etag1.takeWhile (fun ch => ch ≠ '"')
    { c with tag := strtoul10 etag2 % UINT }
  else if ncaseeq "If-Modified-Since: ".data line then
    { c with modified_since := some (String.mk (line.drop 19)) }
  else if ncaseeq "Range: ".data line then parse_range_header c (line.drop 7)
  else if ncaseeq "DNT: ".data line then c
  else if ncaseeq "Sec-GPC: ".data line then c
  else if ncaseeq "Upgrade-Insecure-Requests: ".data line then
    { c with upgrade_tls := (line.drop 27).head? = some '1' }
  else c

/-- Model of `validate_http_method`. -/
def validate_http_method (m : String) : Bool :=
  m = "GET" || m = "HEAD" || m = "OPTIONS"

/-- Model of `validate_path`: rejects `..` and `//`.  (The NUL-byte check in
the source compares `strlen` of the path with `strcspn` of the path over an
empty reject set, two always-equal values, so it never fires and contributes
nothing.) -/
def validate_path (path : String) : Bool :=
  !(hasSubstr path.data "..".data) && !(hasSubstr path.data "//".data)

/-- Model of `resolve_request_path(request_path, webroot)`: `/` becomes
`/landing.html`, the rest is `snprintf`-concatenated into a 4096-byte buffer
(hence silently truncated to 4095 characters). -/
def resolve_request_path (request_path webroot : String) : String :=
  let page := if request_path = "/" then "/landing.html" else request_path
  String.mk (snprintf_bytes 4096 (webroot.data ++ "/webpages".data ++ page.data))

/-- One `strtok_r(_, " ", _)` step on the request line: skip leading spaces,
take the run of non-spaces, and consume the single delimiter the call
overwrites with NUL. -/
def token_sp (s : List Char) : Option (List Char × List Char) :=
  let s1 := s.dropWhile (fun ch => ch = ' ')
  if s1.isEmpty then none
  else
    let tok := s1.takeWhile (fun ch => ch ≠ ' ')
    let rest := s1.dropWhile (fun ch => ch ≠ ' ')
    some (tok, if rest.isEmpty then [] else rest.drop 1)

/-! ## `response.c` — response emission

A `Response` records the status code together with the header fields and body
bytes the source writes to the transport, in emission order. -/

structure Response where
  status : Nat
  headers : List (String × String)
  body : List Nat
  deriving DecidableEq

/-- Model of `get_status_message`. -/
def get_status_message (code : Nat) : String :=
  if code = 200 then "OK"
  else if code = 206 then "Partial Content"
  else if code = 301 then "Moved Permanently"
  else if code = 304 then "Not Modified"
  else if code = 400 then "Bad Request"
  else if code = 403 then "Forbidden"
  else if code = 404 then "Not Found"
  else if code = 416 then "Range Not Satisfiable"
  else if code = 418 then "I'm a teapot"
  else if code = 500 then "Internal Server Error"
  else if code = 501 then "Not Implemented"
  else if code = 505 then "HTTP Version Not Supported"
  else "Unknown"

/-- The HTML error page template of `send_error_response`. -/
def error_page_body (code : Nat) (msg : String) : String :=
  "<html>\n<head><title>" ++ toString code ++ " " ++ msg ++
  "</title></head>\n<body>\n<h1>" ++ toString code ++ " " ++ msg ++
  "</h1>\n<hr>\n<p>Snap/0.4</p>\n</body>\n</html>\n"

/-- Model of `send_error_response(status_code, client)`: HTML body, `text/html`,
always `Connection: close`, no `Content-Range` header. -/
def send_error_response (code : Nat) (now : String) : Response :=
  let msg := get_status_message code
  let body := error_page_body code msg
  { status := code,
    headers := [("Content-Type", "text/html"),
                ("Content-Length", toString body.length),
                ("Date", now),
                ("Connection", "close")],
    body := strBytes body }

/-- Model of `send_not_modified_response(client, cache_node)`: 304, no body; `ETag`
only with a catalog entry on a non-SSL connection; `Last-Modified` only when
the entry carries one. -/
def send_not_modified_response (c : ClientReq) (node : Option NodeData) (now : String) : Response :=
  { status := 304,
    headers :=
      [("Date", now)]
      ++ (match node with
          | some nd => if c.is_ssl then [] else [("ETag", "\"" ++ toString nd.file_hash ++ "\"")]
          | none => [])
      ++ (match node with
          | some nd =>
              match nd.last_modified with
              | some lm => [("Last-Modified", lm)]
              | none => []
          | none => []),
    body := [] }

/-- Model of `send_redirect_response(location, client)`. -/
def send_redirect_response (location : String) (now : String) : Response :=
  { status := 301,
    headers := [("Location", location), ("Date", now), ("Connection", "close")],
    body := [] }

/-- Model of `send_options_response(client)`. -/
def send_options_response (now : String) : Response :=
  { status := 200,
    headers := [("Allow", "GET, HEAD, OPTIONS"), ("Date", now), ("Content-Length", "0")],
    body := [] }

/-- Model of `send_range_not_satisfiable(client, file_size)` — present in the source
but never called by any caller. -/
def send_range_not_satisfiable (file_size : Int) (now : String) : Response :=
  { status := 416,
    headers := [("Content-Range", "bytes */" ++ toString file_size),
                ("Date", now),
                ("Content-Length", "0")],
    body := [] }

/-- The effective `[start, end]` window `send_file_response` computes from
the parsed range fields and the file size `N`: suffix form, start+end form
with the `end_range > 0 && end_range < file_size` guard, start-only form,
and the whole file when no range was given. -/
def range_window (c : ClientReq) (N : Int) : Int × Int :=
  if c.range then
    if c.start_range < 0 then
      let suffix_len := -c.start_range
      (if N > suffix_len then N - suffix_len else 0, N - 1)
    else
      (c.start_range, if c.end_range > 0 ∧ c.end_range < N then c.end_range else N - 1)
  else (0, N - 1)

/-- Model of `send_file_response(client, cache_node)` on an opened file of bytes
`file`: computes the effective `[start, end]` window (`range_window` above),
sends a generic `send_error_response(416, ...)` when the window is invalid,
and otherwise emits 200/206 headers followed by the body bytes (suppressed
for HEAD).  `mime` is the external MIME resolver, `now` the `Date` value. -/
def send_file_response (mime : String → String) (now : String) (c : ClientReq)
    (node : Option NodeData) (full_path : String) (file : List Nat) : Response :=
  let N : Int := file.length
  let start := (range_window c N).1
  let endp := (range_window c N).2
  if c.range ∧ (start ≥ N ∨ start < 0 ∨ endp < start) then
    send_error_response 416 now
  else
    let content_length := endp - start + 1
    { status := if c.range then 206 else 200,
      headers :=
        [("Content-Type", mime full_path),
         ("Content-Length", toString content_length),
         ("Accept-Ranges", "bytes"),
         ("Date", now)]
        ++ (match node with
            | some nd => if c.is_ssl then [] else [("ETag", "\"" ++ toString nd.file_hash ++ "\"")]
            | none => [])
        ++ (match node with
            | some nd =>
                match nd.last_modified with
                | some lm => [("Last-Modified", lm)]
                | none => []
            | none => [])
        ++ (if c.range then
              [("Content-Range",
                "bytes " ++ toString start ++ "-" ++ toString endp ++ "/" ++ toString N)]
            else [])
        ++ [("Connection", if c.connection_status then "keep-alive" else "close")],
      body := if c.method = "HEAD" then [] else (file.drop start.toNat).take content_length.toNat }

/-! ## `main.c` — the per-connection worker -/

/-- The `If-Modified-Since` short-circuit of `handle_client_thread`:
`cache_node && cache_node->last_modified && client->modified_since` and
`strcmp(last_modified, modified_since) <= 0`. -/
def ims_hit (node : Option NodeData) (ms : Option String) : Bool :=
  match node, ms with
  | some nd, some m =>
      match nd.last_modified with
      | some lm => strcmp_le lm m
      | none => false
  | _, _ => false

/-- The `If-None-Match` short-circuit of `handle_client_thread`:
`cache_node && client->tag != 0 && cache_node->file_hash == client->tag`. -/
def etag_hit (node : Option NodeData) (tag : Nat) : Bool :=
  match node with
  | some nd => decide (tag ≠ 0) && decide (nd.file_hash = tag)
  | none => false

/-- Decision sequence of `handle_client_thread` on a successfully parsed
request: TLS-upgrade redirect, method validation (with the
`send_options_response` branch guarded by `!validate_http_method`), path
validation, path resolution, catalog lookup, the two conditional-request
short-circuits, `open`, and the file response.  The second component records
whether the worker reached the `open` call on the resolved path. -/
def handle_parsed (webroot : String) (tree : Tree) (fs : FS) (mime : String → String)
    (now : String) (c : ClientReq) : Response × Bool :=
  if c.is_ssl = false ∧ c.upgrade_tls = true then
    let url := String.mk (snprintf_bytes 512 (("https://" ++ (c.host.getD "localhost") ++ c.path).data))
    (send_redirect_response url now, false)
  else if validate_http_method c.method = false then
    (if c.method = "OPTIONS" then send_options_response now else send_error_response 501 now,
     false)
  else if validate_path c.path = false then
    (send_error_response 403 now, false)
  else
    let full := resolve_request_path c.path webroot
    let node := cache_lookup tree full
    if ims_hit node c.modified_since then (send_not_modified_response c node now, false)
    else if etag_hit node c.tag then (send_not_modified_response c node now, false)
    else
      match fs.open_file full with
      | .enoent => (send_error_response 404 now, true)
      | .eacces => (send_error_response 403 now, true)
      | .other => (send_error_response 500 now, true)
      | .ok bytes => (send_file_response mime now c node full bytes, true)

/-- Model of `parse_http_request(raw_request, ...)`: tokenize on CR/LF, split
the request line with `strtok_r(_, " ", _)` (the version token takes the
whole remainder of the line), validate the version, fold the header lines,
and require `Host` for HTTP/1.1.  On failure the designated error response is
sent before `NULL` is returned, so the error carries a `Response`. -/
def parse_http_request (now : String) (is_ssl : Bool) (raw : String) :
    Except Response ClientReq :=
  let c0 := defaultClientReq is_ssl
  match ctokens ['\r', '\n'] raw.data with
  | [] => .error (send_error_response 400 now)
  | reqline :: headerLines =>
    match token_sp reqline with
    | none => .error (send_error_response 400 now)
    | some (methodTok, rest1) =>
      match token_sp rest1 with
      | none => .error (send_error_response 400 now)
      | some (pathTok, rest2) =>
        if rest2.isEmpty then .error (send_error_response 400 now)
        else
          let versionStr := String.mk rest2
          if versionStr ≠ "HTTP/1.0" ∧ versionStr ≠ "HTTP/1.1" then
            .error (send_error_response 505 now)
          else
            let c1 := { c0 with
                        method := String.mk methodTok,
                        path := String.mk pathTok,
                        version := versionStr,
                        connection_status := decide (versionStr = "HTTP/1.1") }
            let c2 := headerLines.foldl parse_header_line c1
            if versionStr = "HTTP/1.1" ∧ c2.host = none then
              .error (send_error_response 400 now)
            else .ok c2

/-- What one run of `handle_client_thread` leaves behind: the responses
written to the transport, whether the worker reached the `open` call on a
resolved path, and whether the transport was closed on thread exit. -/
structure ConnOut where
  responses : List Response
  opened : Bool
  closed : Bool
  deriving DecidableEq

/-- Model of `handle_client_thread`: one `recv` of at most 8191 bytes, one
parse, one response, then unconditionally `close` (plus `SSL_shutdown` when
TLS).  `conn` lists the payloads successive `recv` calls would yield; the
worker only ever reads the first. -/
def handle_client_thread (webroot : String) (tree : Tree) (fs : FS)
    (mime : String → String) (now : String) (is_ssl : Bool) (conn : List String) : ConnOut :=
  match conn with
  | [] => ⟨[], false, true⟩
  | raw :: _ =>
    let buf := String.mk (raw.data.take 8191)
    if buf.data.isEmpty then ⟨[], false, true⟩
    else
      match parse_http_request now is_ssl buf with
      | .error r => ⟨[r], false, true⟩
      | .ok c =>
        let pr := handle_parsed webroot tree fs mime now c
        ⟨[pr.1], pr.2, true⟩

/-! ## Concrete fixtures used to settle the claims on explicit inputs -/

/-- A fixed MIME resolver standing in for the external collaborator. -/
def mime_fixed : String → String := fun _ => "text/html"

/-- Webroot `/w` holding a two-byte `landing.html`. -/
def fs_landing : FS :=
  ⟨fun p => if p = "/w/webpages/landing.html" then .ok [72, 73] else .enoent,
   fun _ => none⟩

/-- A plain keep-alive HTTP/1.1 GET for the root. -/
def req_root : String := "GET / HTTP/1.1\r\nHost: h\r\n\r\n"

/-- Webroot `/w` holding a ten-byte `index.html`. -/
def fs_index10 : FS :=
  ⟨fun p => if p = "/w/webpages/index.html" then .ok [65, 66, 67, 68, 69, 70, 71, 72, 73, 74]
            else .enoent,
   fun _ => none⟩

/-- Webroot `/w` holding a 1000-byte file `f`. -/
def fs_f1000 : FS :=
  ⟨fun p => if p = "/w/webpages/f" then .ok (List.replicate 1000 65) else .enoent,
   fun _ => none⟩

/-- Webroot `/w` holding a ten-byte file `f` with distinct bytes. -/
def fs_f10 : FS :=
  ⟨fun p => if p = "/w/webpages/f" then .ok [0, 1, 2, 3, 4, 5, 6, 7, 8, 9] else .enoent,
   fun _ => none⟩

/-- A catalog entry for `/w/webpages/a.html` with content fingerprint 42. -/
def nd_catalogA : NodeData :=
  ⟨"/w/webpages/a.html", hashPath "/w/webpages/a.html", 42, some "Mon, 01 Jan 2024 00:00:00 GMT"⟩

/-- A one-entry catalog holding `nd_catalogA`. -/
def tree_catalogA : Tree := .node .nil nd_catalogA .nil

/-- The filesystem backing `tree_catalogA`. -/
def fs_catalogA : FS :=
  ⟨fun p => if p = "/w/webpages/a.html" then .ok [65] else .enoent, fun _ => none⟩

/-- A parsed GET for `/a.html` over webroot `/w`, with a chosen
`If-None-Match` value and transport variant. -/
def creq_a (tag : Nat) (ssl : Bool) : ClientReq :=
  { method := "GET", path := "/a.html", version := "HTTP/1.1", host := some "h",
    connection_status := true, tag := tag, modified_since := none,
    range := false, start_range := 0, end_range := -1,
    upgrade_tls := false, is_ssl := ssl }

/-- A parsed cleartext HEAD for `/a.html` carrying `Range: bytes=2-5`. -/
def creq_a_head_range : ClientReq :=
  { method := "HEAD", path := "/a.html", version := "HTTP/1.1", host := some "h",
    connection_status := true, tag := 0, modified_since := none,
    range := true, start_range := 2, end_range := 5,
    upgrade_tls := false, is_ssl := false }

/-- A filesystem backing `tree_catalogA` with a six-byte `a.html`, so that
`Range: bytes=2-5` is satisfiable. -/
def fs_catalogA6 : FS :=
  ⟨fun p => if p = "/w/webpages/a.html" then .ok [65, 66, 67, 68, 69, 70] else .enoent,
   fun _ => none⟩

/-- Walk line of a readable file under the compile-time webroot. -/
def walk_a : String := "/home/remote/server/webpages/a.html"

/-- Walk line of an unreadable file under the compile-time webroot. -/
def walk_b : String := "/home/remote/server/webpages/b.html"

/-- Filesystem where `walk_a` is readable and everything else is not. -/
def fs_ab : FS :=
  ⟨fun p => if p = walk_a then .ok [10] else .enoent, fun _ => none⟩

/-- Walk line of a readable file under a `videos/` directory. -/
def walk_v : String := "/home/remote/server/webpages/videos/v.mp4"

/-- Walk line of a readable regular page. -/
def walk_w : String := "/home/remote/server/webpages/w.html"

/-- Filesystem where both `walk_v` and `walk_w` are readable. -/
def fs_vw : FS :=
  ⟨fun p => if p = walk_v then .ok [1, 2] else if p = walk_w then .ok [3] else .enoent,
   fun _ => none⟩

/-- The per-entry catalog invariant: nonzero fingerprints and a path below
the prefix `pre`. -/
def entry_ok (pre : List Char) (d : NodeData) : Prop :=
  d.path_hash ≠ 0 ∧ d.file_hash ≠ 0 ∧ isPrefixChars pre d.path.data = true

/-- The walk prefix the catalog build actually uses: the compile-time
`SERVER_PATH` with the `webpages` subtree, as baked into the `find` command
of `init_tree`. -/
def findPrefix : List Char := (SERVER_PATH ++ "/webpages").data

/-- A 5001-character request target (fits in the 8 KiB request buffer but
overflows the 4 KiB resolution buffer). -/
def longTargetA : String := String.mk ('/' :: List.replicate 5000 'a')

/-- The same target with one more character appended. -/
def longTargetB : String := String.mk (('/' :: List.replicate 5000 'a') ++ ['b'])

/-! ## Catalog invariant lemmas -/

/-- Insertion preserves any per-entry property that the new entry enjoys. -/
theorem tree_all_insert_go {p : NodeData → Prop} (d : NodeData) :
    ∀ t : Tree, tree_all p t → p d → tree_all p (insert_go t d) := by
  intro t
  induction t with
  | nil =>
      intro _ hd
      simpa [insert_go, tree_all] using hd
  | node l d0 r ihl ihr =>
      intro ht hd
      obtain ⟨h0, hl, hr⟩ := ht
      by_cases he : d0.path_hash = d.path_hash
      · simp only [insert_go, if_pos he]
        exact ⟨h0, hl, hr⟩
      · by_cases hgt : d0.path_hash > d.path_hash
        · simp only [insert_go, if_neg he, if_pos hgt]
          exact ⟨h0, ihl hl hd, hr⟩
        · simp only [insert_go, if_neg he, if_neg hgt]
          exact ⟨h0, hl, ihr hr hd⟩

/-- Insertion preserves the BST ordering invariant. -/
theorem tree_bst_insert_go (d : NodeData) :
    ∀ t : Tree, tree_bst t → tree_bst (insert_go t d) := by
  intro t
  induction t with
  | nil =>
      intro _
      simp [insert_go, tree_bst, tree_all]
  | node l d0 r ihl ihr =>
      intro ht
      obtain ⟨hbl, hbr, hal, har⟩ := ht
      by_cases he : d0.path_hash = d.path_hash
      · simp only [insert_go, if_pos he]
        exact ⟨hbl, hbr, hal, har⟩
      · by_cases hgt : d0.path_hash > d.path_hash
        · simp only [insert_go, if_neg he, if_pos hgt]
          exact ⟨ihl hbl, hbr, tree_all_insert_go d l hal hgt, har⟩
        · have hlt : d0.path_hash < d.path_hash := by omega
          simp only [insert_go, if_neg he, if_neg hgt]
          exact ⟨hbl, ihr hbr, hal, tree_all_insert_go d r har hlt⟩

/-- One `add_node` step preserves the BST invariant and the per-entry
invariant, given that the new walk line lies under the prefix. -/
theorem add_node_inv (fs : FS) (pre : List Char) (line : String) (t : Tree)
    (hb : tree_bst t) (ha : tree_all (entry_ok pre) t)
    (hl : isPrefixChars pre line.data = true) :
    tree_bst (add_node fs t line) ∧ tree_all (entry_ok pre) (add_node fs t line) := by
  by_cases hph : hashPath line = 0
  · simp [add_node, hph, tree_bst, tree_all]
  · by_cases hfh : hashFile fs line = 0
    · simp [add_node, hph, hfh, tree_bst, tree_all]
    · cases t with
      | nil =>
          simp only [add_node, if_neg hph, if_neg hfh]
          exact ⟨⟨trivial, trivial, trivial, trivial⟩, ⟨⟨hph, hfh, hl⟩, trivial, trivial⟩⟩
      | node l d0 r =>
          simp only [add_node, if_neg hph, if_neg hfh, insert_node]
          refine ⟨tree_bst_insert_go _ _ hb, tree_all_insert_go _ _ ha ?_⟩
          exact ⟨hph, hfh, hl⟩

/-- The walk fold of `init_tree` preserves both invariants. -/
theorem init_walk_inv (fs : FS) (pre : List Char) :
    ∀ (rest : List String) (acc : Tree),
      tree_bst acc → tree_all (entry_ok pre) acc →
      (∀ l ∈ rest, isPrefixChars pre l.data = true) →
      tree_bst (rest.foldl
        (fun h line => if hasSubstr line.data videosSub.data then h else add_node fs h line) acc)
      ∧ tree_all (entry_ok pre) (rest.foldl
        (fun h line => if hasSubstr line.data videosSub.data then h else add_node fs h line) acc) := by
  intro rest
  induction rest with
  | nil =>
      intro acc hb ha _
      exact ⟨hb, ha⟩
  | cons x xs ih =>
      intro acc hb ha hw
      have hx : isPrefixChars pre x.data = true := hw x (List.mem_cons_self x xs)
      have hxs : ∀ l ∈ xs, isPrefixChars pre l.data = true :=
        fun l hm => hw l (List.mem_cons_of_mem x hm)
      simp only [List.foldl_cons]
      by_cases hv : hasSubstr x.data videosSub.data = true
      · rw [if_pos hv]
        exact ih acc hb ha hxs
      · rw [if_neg hv]
        obtain ⟨hb2, ha2⟩ := add_node_inv fs pre x acc hb ha hx
        exact ih _ hb2 ha2 hxs

/-- Every hash in the in-order hash list satisfies a property holding on all
entries. -/
theorem tree_all_hashes {P : Nat → Prop} :
    ∀ t : Tree, tree_all (fun d => P d.path_hash) t → ∀ x ∈ tree_hashes t, P x := by
  intro t
  induction t with
  | nil => intro _ x hx; simp [tree_hashes] at hx
  | node l d r ihl ihr =>
      intro ht x hx
      obtain ⟨h0, hl, hr⟩ := ht
      simp only [tree_hashes, List.mem_append, List.mem_cons] at hx
      rcases hx with hx | hx | hx
      · exact ihl hl x hx
      · exact hx ▸ h0
      · exact ihr hr x hx

/-- A BST-ordered catalog has a strictly increasing in-order hash list. -/
theorem tree_bst_sorted :
    ∀ t : Tree, tree_bst t → (tree_hashes t).Sorted (· < ·) := by
  intro t
  induction t with
  | nil => intro _; simp [tree_hashes]
  | node l d r ihl ihr =>
      intro ht
      obtain ⟨hbl, hbr, hal, har⟩ := ht
      simp only [tree_hashes]
      refine List.pairwise_append.mpr ⟨ihl hbl, ?_, ?_⟩
      · exact List.sorted_cons.mpr ⟨fun b hb => tree_all_hashes r har b hb, ihr hbr⟩
      · intro a hal' b hb
        have ha' : a < d.path_hash :=
          @tree_all_hashes (fun x => x < d.path_hash) l hal a hal'
        rcases List.mem_cons.mp hb with hb | hb
        · exact hb ▸ ha'
        · exact ha'.trans (@tree_all_hashes (fun x => d.path_hash < x) r har b hb)

/-- A BST-ordered catalog has pairwise-distinct path fingerprints. -/
theorem tree_bst_nodup (t : Tree) (h : tree_bst t) : (tree_hashes t).Nodup :=
  (tree_bst_sorted t h).imp (fun hlt => ne_of_lt hlt)

/-! ## Claim C1 — keep-alive reuse -/

/-- C1, counterexample.  On a cleartext connection offering two successive
HTTP/1.1 GET requests (no `Connection: close`), the worker sends a single 200
response that declares `Connection: keep-alive`, yet it never reads, parses
or serves the second request, and closes the transport: exactly one response
is produced.  This refutes the claim that after a keep-alive response the
server loops back and serves the next request on the same transport. -/
theorem c1_counterexample :
    (handle_client_thread "/w" .nil fs_landing mime_fixed "D" false
        [req_root, req_root]).responses.map Response.status = [200]
    ∧ (handle_client_thread "/w" .nil fs_landing mime_fixed "D" false
        [req_root, req_root]).responses.all
        (fun r => r.headers.contains ("Connection", "keep-alive")) = true
    ∧ (handle_client_thread "/w" .nil fs_landing mime_fixed "D" false
        [req_root, req_root]).responses.length = 1
    ∧ (handle_client_thread "/w" .nil fs_landing mime_fixed "D" false
        [req_root, req_root]).closed = true := by
  decide

/-- C1, amended.  `handle_client_thread` serves at most one request per
connection and always closes the transport afterwards — even when the
response it sent declared `Connection: keep-alive` and no write error
occurred; the next request on the same transport is never read. -/
theorem c1_amended (webroot : String) (tree : Tree) (fs : FS) (mime : String → String)
    (now : String) (is_ssl : Bool) (conn : List String) :
    (handle_client_thread webroot tree fs mime now is_ssl conn).responses.length ≤ 1
    ∧ (handle_client_thread webroot tree fs mime now is_ssl conn).closed = true := by
  cases conn with
  | nil => simp [handle_client_thread]
  | cons raw rest =>
      simp only [handle_client_thread]
      by_cases h : (String.mk (raw.data.take 8191)).data.isEmpty
      · simp [h]
      · simp only [h]
        cases parse_http_request now is_ssl (String.mk (raw.data.take 8191)) with
        | error r => simp
        | ok c => simp

/-! ## Claim C2 — OPTIONS handling -/

/-- C2.  The source intends OPTIONS requests to get the
`Allow: GET, HEAD, OPTIONS` response (`send_options_response`, guarded in
`handle_client_thread` by `!validate_http_method`), but
`validate_http_method` returns 1 for `OPTIONS`, so that branch is
unreachable: an OPTIONS request falls through to path resolution, the file
is opened (`opened = true`), and its full content is served as a 200 with no
`Allow` header and a nonempty body — here for
`OPTIONS /index.html HTTP/1.1` against a ten-byte `index.html`. -/
theorem c2_options_served_as_file :
    (handle_client_thread "/w" .nil fs_index10 mime_fixed "D" false
        ["OPTIONS /index.html HTTP/1.1\r\nHost: h\r\n\r\n"]).opened = true
    ∧ (handle_client_thread "/w" .nil fs_index10 mime_fixed "D" false
        ["OPTIONS /index.html HTTP/1.1\r\nHost: h\r\n\r\n"]).responses.map Response.status = [200]
    ∧ (handle_client_thread "/w" .nil fs_index10 mime_fixed "D" false
        ["OPTIONS /index.html HTTP/1.1\r\nHost: h\r\n\r\n"]).responses.all
        (fun r => !(r.headers.contains ("Allow", "GET, HEAD, OPTIONS"))) = true
    ∧ (handle_client_thread "/w" .nil fs_index10 mime_fixed "D" false
        ["OPTIONS /index.html HTTP/1.1\r\nHost: h\r\n\r\n"]).responses.map Response.body
      = [[65, 66, 67, 68, 69, 70, 71, 72, 73, 74]] := by
  decide

/-! ## Claim C4 — unsatisfiable range -/

/-- C4.  For `GET /f` with `Range: bytes=2000-3000` against a 1000-byte
file, the source answers through the generic `send_error_response(416, ...)`
(the conforming `send_range_not_satisfiable` is never called): the 416
response carries no `Content-Range` header and a nonempty `text/html` body,
contradicting the claimed `Content-Range: bytes */N` and empty body. -/
theorem c4_416_lacks_content_range :
    (handle_client_thread "/w" .nil fs_f1000 mime_fixed "D" false
        ["GET /f HTTP/1.1\r\nHost: h\r\nRange: bytes=2000-3000\r\n\r\n"]).responses.map
        Response.status = [416]
    ∧ (handle_client_thread "/w" .nil fs_f1000 mime_fixed "D" false
        ["GET /f HTTP/1.1\r\nHost: h\r\nRange: bytes=2000-3000\r\n\r\n"]).responses.all
        (fun r => r.headers.all (fun hd => hd.1 ≠ "Content-Range")) = true
    ∧ (handle_client_thread "/w" .nil fs_f1000 mime_fixed "D" false
        ["GET /f HTTP/1.1\r\nHost: h\r\nRange: bytes=2000-3000\r\n\r\n"]).responses.all
        (fun r => !r.body.isEmpty) = true
    ∧ (handle_client_thread "/w" .nil fs_f1000 mime_fixed "D" false
        ["GET /f HTTP/1.1\r\nHost: h\r\nRange: bytes=2000-3000\r\n\r\n"]).responses.all
        (fun r => r.headers.contains ("Content-Type", "text/html")) = true := by
  decide

/-! ## Claim C5 — satisfiable-range correctness at `e = 0` -/

/-- C5.  For a ten-byte file and `Range: bytes=0-0`, the guard
`end_range > 0 && end_range < file_size` in `send_file_response` treats the
parsed end `0` as absent, so the effective window becomes `[0, 9]`: the 206
response has `Content-Length: 10`, `Content-Range: bytes 0-9/10` and the
whole file as body — instead of the claimed `Content-Length: 1`,
`Content-Range: bytes 0-0/10` and one-byte body. -/
theorem c5_range_0_0_returns_whole_file :
    (handle_client_thread "/w" .nil fs_f10 mime_fixed "D" false
        ["GET /f HTTP/1.1\r\nHost: h\r\nRange: bytes=0-0\r\n\r\n"]).responses.map
        Response.status = [206]
    ∧ (handle_client_thread "/w" .nil fs_f10 mime_fixed "D" false
        ["GET /f HTTP/1.1\r\nHost: h\r\nRange: bytes=0-0\r\n\r\n"]).responses.all
        (fun r => r.headers.contains ("Content-Length", "10")) = true
    ∧ (handle_client_thread "/w" .nil fs_f10 mime_fixed "D" false
        ["GET /f HTTP/1.1\r\nHost: h\r\nRange: bytes=0-0\r\n\r\n"]).responses.all
        (fun r => r.headers.contains ("Content-Range", "bytes 0-9/10")) = true
    ∧ (handle_client_thread "/w" .nil fs_f10 mime_fixed "D" false
        ["GET /f HTTP/1.1\r\nHost: h\r\nRange: bytes=0-0\r\n\r\n"]).responses.map
        Response.body = [[0, 1, 2, 3, 4, 5, 6, 7, 8, 9]] := by
  decide

/-! ## Claim C7 — per-file build failure -/

/-- C7.  When the walk lists a readable `a.html` followed by an unreadable
`b.html`, `add_node` returns `NULL` on the failed content hash and the
caller assigns that over the tree head: the whole catalog built so far is
discarded and the build ends empty — while the same walk without the bad
file catalogs `a.html`.  This contradicts the claim (and `add_node`'s own
documentation) that a per-file failure only skips the offending entry. -/
theorem c7_per_file_failure_discards_prior_entries :
    init_tree fs_ab [walk_a, walk_b] = Tree.nil
    ∧ tree_paths (init_tree fs_ab [walk_a]) = [walk_a] := by
  decide

/-! ## Claim C8 — `/videos/` exclusion -/

/-- C8.  The first line of the walk is added to the catalog without the
`/videos/` filter (only the loop over the remaining lines checks it): with a
`videos/` file listed first, that file ends up in the catalog, contradicting
the claim that no `/videos/` entry is present for every walk ordering.  With
the same file listed second, the filter works and only `w.html` remains. -/
theorem c8_first_videos_line_catalogued :
    (tree_paths (init_tree fs_vw [walk_v, walk_w])).contains walk_v = true
    ∧ hasSubstr walk_v.data videosSub.data = true
    ∧ tree_paths (init_tree fs_vw [walk_w, walk_v]) = [walk_w] := by
  decide

/-! ## Claim C9 — catalog invariants -/

/-- C9, counterexample.  `cache_tree_init` ignores its `root_dir` argument
and walks the compile-time `SERVER_PATH`: building with configured document
root `/srv/alt` still catalogs `/home/remote/server/webpages/a.html`, whose
path does not lie under the configured root.  This refutes the invariant
that every entry's path lies under the configured document root. -/
theorem c9_counterexample :
    tree_paths (cache_tree_init fs_ab [walk_a] "/srv/alt") = [walk_a]
    ∧ isPrefixChars "/srv/alt".data walk_a.data = false := by
  decide

/-- C9, amended.  Every catalog produced by the build does satisfy: nonzero
path and content fingerprints for every entry, pairwise-distinct path
fingerprints, and — provided every walk line lies under it — every entry's
path lies under the compile-time `SERVER_PATH ++ "/webpages"` tree (not under
the configured `root_dir`, which the build ignores). -/
theorem c9_amended (fs : FS) (walk : List String) (root_dir : String)
    (hw : ∀ l ∈ walk, isPrefixChars findPrefix l.data = true) :
    tree_all (entry_ok findPrefix) (cache_tree_init fs walk root_dir)
    ∧ (tree_hashes (cache_tree_init fs walk root_dir)).Nodup := by
  have hmain : tree_bst (cache_tree_init fs walk root_dir)
      ∧ tree_all (entry_ok findPrefix) (cache_tree_init fs walk root_dir) := by
    cases walk with
    | nil =>
        simp [cache_tree_init, init_tree, tree_bst, tree_all]
    | cons first rest =>
        have hfirst : isPrefixChars findPrefix first.data = true :=
          hw first (List.mem_cons_self first rest)
        have hrest : ∀ l ∈ rest, isPrefixChars findPrefix l.data = true :=
          fun l hm => hw l (List.mem_cons_of_mem first hm)
        have hacc := add_node_inv fs findPrefix first .nil trivial trivial hfirst
        simpa [cache_tree_init, init_tree] using
          init_walk_inv fs findPrefix rest (add_node fs .nil first) hacc.1 hacc.2 hrest
  exact ⟨hmain.2, tree_bst_nodup _ hmain.1⟩

/-- C9, witness.  The amended invariant instantiated on a concrete
single-file walk and an arbitrary configured root. -/
theorem c9_witness :
    (∀ l ∈ [walk_a], isPrefixChars findPrefix l.data = true)
    ∧ (tree_all (entry_ok findPrefix) (cache_tree_init fs_ab [walk_a] "/srv/alt")
       ∧ (tree_hashes (cache_tree_init fs_ab [walk_a] "/srv/alt")).Nodup) :=
  ⟨by decide, c9_amended fs_ab [walk_a] "/srv/alt" (by decide)⟩

/-! ## Claim C3 — path-traversal refusal -/

/-- C3, counterexample.  A cleartext request for a target containing `..`
that also carries `Upgrade-Insecure-Requests: 1` is answered with the
TLS-upgrade 301 redirect, not the claimed 403, because the redirect check
precedes path validation in `handle_client_thread` (the target is even
echoed into the `Location` URL).  No file descriptor is opened. -/
theorem c3_counterexample :
    hasSubstr "/../etc/passwd".data "..".data = true
    ∧ (handle_client_thread "/w" .nil fs_landing mime_fixed "D" false
        ["GET /../etc/passwd HTTP/1.1\r\nHost: h\r\nUpgrade-Insecure-Requests: 1\r\n\r\n"]).responses.map
        Response.status = [301]
    ∧ (handle_client_thread "/w" .nil fs_landing mime_fixed "D" false
        ["GET /../etc/passwd HTTP/1.1\r\nHost: h\r\nUpgrade-Insecure-Requests: 1\r\n\r\n"]).opened
      = false := by
  decide

/-- C3, amended.  For every parsed request whose target contains `..` or
`//`, on either listener and for every method, the worker never reaches the
`open` call on the resolved path; and the response is 403 provided the
request is not first diverted by the cleartext TLS-upgrade redirect (which
yields 301) or by method validation (an unsupported method yields 501). -/
theorem c3_amended (webroot now : String) (tree : Tree) (fs : FS) (mime : String → String)
    (c : ClientReq)
    (hpath : hasSubstr c.path.data "..".data = true ∨ hasSubstr c.path.data "//".data = true) :
    (handle_parsed webroot tree fs mime now c).2 = false
    ∧ ((validate_http_method c.method = true ∧ ¬(c.is_ssl = false ∧ c.upgrade_tls = true)) →
       (handle_parsed webroot tree fs mime now c).1.status = 403) := by
  have hvp : validate_path c.path = false := by
    rcases hpath with h | h <;> simp [validate_path, h]
  unfold handle_parsed
  by_cases hred : c.is_ssl = false ∧ c.upgrade_tls = true
  · rw [if_pos hred]
    exact ⟨rfl, fun hx => absurd hred hx.2⟩
  · rw [if_neg hred]
    by_cases hm : validate_http_method c.method = false
    · rw [if_pos hm]
      refine ⟨rfl, fun hx => ?_⟩
      rw [hx.1] at hm
      cases hm
    · rw [if_neg hm, if_pos hvp]
      exact ⟨rfl, fun _ => rfl⟩

/-- C3, witness.  The amended statement applied to a concrete parsed HEAD
request for `/..//secret` on the TLS listener: no open, and status 403. -/
theorem c3_witness :
    (hasSubstr "/..//secret".data "..".data = true ∨
       hasSubstr "/..//secret".data "//".data = true)
    ∧ ((handle_parsed "/w" .nil fs_landing mime_fixed "D"
          { method := "HEAD", path := "/..//secret", version := "HTTP/1.1",
            host := some "h", connection_status := true, tag := 0,
            modified_since := none, range := false, start_range := 0,
            end_range := -1, upgrade_tls := false, is_ssl := true }).2 = false
       ∧ ((validate_http_method "HEAD" = true ∧ ¬((true : Bool) = false ∧ (false : Bool) = true)) →
          (handle_parsed "/w" .nil fs_landing mime_fixed "D"
            { method := "HEAD", path := "/..//secret", version := "HTTP/1.1",
              host := some "h", connection_status := true, tag := 0,
              modified_since := none, range := false, start_range := 0,
              end_range := -1, upgrade_tls := false, is_ssl := true }).1.status = 403)) :=
  ⟨by decide,
   c3_amended "/w" "D" .nil fs_landing mime_fixed
     { method := "HEAD", path := "/..//secret", version := "HTTP/1.1",
       host := some "h", connection_status := true, tag := 0,
       modified_since := none, range := false, start_range := 0,
       end_range := -1, upgrade_tls := false, is_ssl := true }
     (by decide)⟩

/-! ## Claim C6 — ETag emission and the conditional round-trip -/

/-- C6, counterexample.  Over TLS, a 200 for a catalogued file carries no
`ETag` header at all: `send_file_response` emits the ETag only when
`cache_node && !client->is_ssl`.  This refutes the claim that every 200/206
for a catalogued file carries the entry's fingerprint on cleartext and TLS
connections alike. -/
theorem c6_counterexample :
    cache_lookup tree_catalogA (resolve_request_path "/a.html" "/w") = some nd_catalogA
    ∧ (handle_client_thread "/w" tree_catalogA fs_catalogA mime_fixed "D" true
        ["GET /a.html HTTP/1.1\r\nHost: h\r\n\r\n"]).responses.map Response.status = [200]
    ∧ (handle_client_thread "/w" tree_catalogA fs_catalogA mime_fixed "D" true
        ["GET /a.html HTTP/1.1\r\nHost: h\r\n\r\n"]).responses.all
        (fun r => r.headers.all (fun hd => hd.1 ≠ "ETag")) = true := by
  decide

/-- Whenever `send_file_response` answers 200 or 206 (i.e. the 416 branch is
not taken) for a file with a catalog entry on a non-SSL connection, the
emitted headers carry the entry's content fingerprint as `ETag` — for every
method (the HEAD suppression only empties the body) and every range form. -/
theorem send_file_response_etag (mime : String → String) (now : String) (c : ClientReq)
    (nd : NodeData) (full : String) (file : List Nat) (hssl : c.is_ssl = false) :
    ((send_file_response mime now c (some nd) full file).status = 200
      ∨ (send_file_response mime now c (some nd) full file).status = 206) →
    ("ETag", "\"" ++ toString nd.file_hash ++ "\"")
      ∈ (send_file_response mime now c (some nd) full file).headers := by
  simp only [send_file_response]
  split
  · intro hst
    simp [send_error_response] at hst
  · intro _
    simp [hssl]

/-- C6, amended.  On a cleartext connection, every 200/206 response for a
catalogued file — GET or HEAD, with or without a `Range` — carries
`ETag: "<content_fingerprint>"` from the entry, and a subsequent cleartext
request for the same target with `If-None-Match` equal to that fingerprint
yields exactly 304 with no body and an identical `ETag`.  (Over TLS the ETag
is omitted, per the counterexample.)  The hypotheses are exactly the gates of
`handle_client_thread`: no upgrade redirect, a supported method, a valid
path, a catalog hit whose `If-Modified-Since`/`If-None-Match` short-circuits
miss, and a successful `open`. -/
theorem c6_amended
    (webroot now now2 : String) (tree : Tree) (fs : FS) (mime : String → String)
    (c c2 : ClientReq) (nd : NodeData) (bytes : List Nat)
    (h1 : c.is_ssl = false) (h2 : c.upgrade_tls = false)
    (h3 : validate_http_method c.method = true)
    (h4 : validate_path c.path = true)
    (h5 : cache_lookup tree (resolve_request_path c.path webroot) = some nd)
    (h6 : ims_hit (some nd) c.modified_since = false)
    (h7 : etag_hit (some nd) c.tag = false)
    (h9 : fs.open_file (resolve_request_path c.path webroot) = OpenResult.ok bytes)
    (g1 : c2.is_ssl = false) (g2 : c2.upgrade_tls = false)
    (g3 : validate_http_method c2.method = true)
    (g4 : c2.path = c.path)
    (g5 : ims_hit (some nd) c2.modified_since = false)
    (g6 : c2.tag = nd.file_hash) (g7 : nd.file_hash ≠ 0) :
    (((handle_parsed webroot tree fs mime now c).1.status = 200
       ∨ (handle_parsed webroot tree fs mime now c).1.status = 206) →
      ("ETag", "\"" ++ toString nd.file_hash ++ "\"")
        ∈ (handle_parsed webroot tree fs mime now c).1.headers)
    ∧ ((handle_parsed webroot tree fs mime now2 c2).1.status = 304
       ∧ ("ETag", "\"" ++ toString nd.file_hash ++ "\"")
           ∈ (handle_parsed webroot tree fs mime now2 c2).1.headers
       ∧ (handle_parsed webroot tree fs mime now2 c2).1.body = []) := by
  have e1 : handle_parsed webroot tree fs mime now c
      = (send_file_response mime now c (some nd) (resolve_request_path c.path webroot) bytes,
         true) := by
    unfold handle_parsed
    rw [if_neg (by simp [h2]), if_neg (by simp [h3]), if_neg (by simp [h4])]
    simp only [h5, h6, h7, h9]
    simp
  have e2 : handle_parsed webroot tree fs mime now2 c2
      = (send_not_modified_response c2 (some nd) now2, false) := by
    unfold handle_parsed
    rw [if_neg (by simp [g2]), if_neg (by simp [g3]), if_neg (by simp [g4, h4])]
    simp only [g4, h5, g5, g6]
    simp [etag_hit, g7]
  constructor
  · rw [e1]
    exact send_file_response_etag mime now c nd (resolve_request_path c.path webroot) bytes h1
  · rw [e2]
    refine ⟨rfl, ?_, rfl⟩
    simp [send_not_modified_response, g1]

/-- C6, witness.  The amended statement on a concrete one-entry catalog: a
cleartext HEAD with `Range: bytes=2-5` against a six-byte `a.html` gets a
206 (shown outright, so the 200/206 antecedent is inhabited) whose headers
carry `ETag: "42"`, and a follow-up GET with `If-None-Match: "42"` gets a
304 with the same ETag and no body. -/
theorem c6_witness :
    (cache_lookup tree_catalogA (resolve_request_path "/a.html" "/w") = some nd_catalogA)
    ∧ (handle_parsed "/w" tree_catalogA fs_catalogA6 mime_fixed "D" creq_a_head_range).1.status = 206
    ∧ ((((handle_parsed "/w" tree_catalogA fs_catalogA6 mime_fixed "D" creq_a_head_range).1.status = 200
          ∨ (handle_parsed "/w" tree_catalogA fs_catalogA6 mime_fixed "D" creq_a_head_range).1.status = 206) →
         ("ETag", "\"" ++ toString nd_catalogA.file_hash ++ "\"")
           ∈ (handle_parsed "/w" tree_catalogA fs_catalogA6 mime_fixed "D" creq_a_head_range).1.headers)
       ∧ ((handle_parsed "/w" tree_catalogA fs_catalogA6 mime_fixed "E" (creq_a 42 false)).1.status = 304
          ∧ ("ETag", "\"" ++ toString nd_catalogA.file_hash ++ "\"")
              ∈ (handle_parsed "/w" tree_catalogA fs_catalogA6 mime_fixed "E" (creq_a 42 false)).1.headers
          ∧ (handle_parsed "/w" tree_catalogA fs_catalogA6 mime_fixed "E" (creq_a 42 false)).1.body = [])) :=
  ⟨by decide, by decide,
   c6_amended "/w" "D" "E" tree_catalogA fs_catalogA6 mime_fixed
     creq_a_head_range (creq_a 42 false) nd_catalogA [65, 66, 67, 68, 69, 70]
     (by decide) (by decide) (by decide) (by decide) (by decide) (by decide) (by decide)
     (by decide) (by decide) (by decide) (by decide) (by decide) (by decide) (by decide)
     (by decide)⟩

/-! ## Claim C10 — path resolution and truncation -/

/-- C10.  `resolve_request_path` returns the concatenation
`webroot ++ "/webpages" ++ target` (with target `/` replaced by
`/landing.html`) truncated to its first 4095 characters; consequently its
result never exceeds 4095 characters, and any two targets whose
concatenations agree on those first 4095 characters resolve to the same
filesystem path.  The function is total: over-long targets are truncated,
never rejected. -/
theorem c10_resolve_request_path_truncates (t w : String) :
    resolve_request_path t w
      = String.mk ((w.data ++ "/webpages".data
          ++ (if t = "/" then "/landing.html" else t).data).take 4095)
    ∧ (resolve_request_path t w).length ≤ 4095
    ∧ ∀ t2 : String,
        (w.data ++ "/webpages".data ++ (if t = "/" then "/landing.html" else t).data).take 4095
          = (w.data ++ "/webpages".data ++ (if t2 = "/" then "/landing.html" else t2).data).take 4095 →
        resolve_request_path t w = resolve_request_path t2 w := by
  refine ⟨?_, ?_, ?_⟩
  · simp [resolve_request_path, snprintf_bytes]
  · simp only [resolve_request_path, snprintf_bytes, String.length]
    simp [List.length_take]
  · intro t2 h
    simp only [resolve_request_path, snprintf_bytes]
    exact congrArg String.mk h

/-- C10, witness.  Two distinct over-long targets (5001 and 5002 characters)
whose concatenations agree on the first 4095 bytes resolve to the same
filesystem path. -/
theorem c10_witness :
    longTargetA ≠ longTargetB
    ∧ resolve_request_path longTargetA "" = resolve_request_path longTargetB "" := by
  have hdata : longTargetA.data = '/' :: List.replicate 5000 'a' := rfl
  have hdataB : longTargetB.data = ('/' :: List.replicate 5000 'a') ++ ['b'] := rfl
  have hlen : longTargetA.data.length = 5001 := by
    rw [hdata, List.length_cons, List.length_replicate]
  have hlenB : longTargetB.data.length = 5002 := by
    rw [hdataB, List.length_append, List.length_cons, List.length_replicate]
    decide
  constructor
  · intro h
    have h2 : longTargetA.data.length = longTargetB.data.length := by rw [h]
    rw [hlen, hlenB] at h2
    exact absurd h2 (by decide)
  · have main := c10_resolve_request_path_truncates longTargetA ""
    refine main.2.2 longTargetB ?_
    have hA : ¬(longTargetA = "/") := by
      intro h
      have h2 : longTargetA.data.length = "/".data.length := by rw [h]
      rw [hlen] at h2
      exact absurd h2 (by decide)
    have hB : ¬(longTargetB = "/") := by
      intro h
      have h2 : longTargetB.data.length = "/".data.length := by rw [h]
      rw [hlenB] at h2
      exact absurd h2 (by decide)
    rw [if_neg hA, if_neg hB]
    have hBA : longTargetB.data = longTargetA.data ++ ['b'] := rfl
    rw [hBA, ← List.append_assoc]
    have h1 : (4095 : Nat) ≤ longTargetA.data.length := by
      rw [hlen]
      decide
    have h2 : longTargetA.data.length
        ≤ (("".data ++ "/webpages".data) ++ longTargetA.data).length := by
      rw [List.length_append]
      exact Nat.le_add_left _ _
    rw [List.take_append_of_le_length (le_trans h1 h2)]

end HttpServer
